import Mathlib

/-!
Verification of the QCM (quiz) parsing/normalization core of the
`cartable-numerique` application, shallowly embedded from
`src/cartable_numerique/src/app_gui.py` (helpers `_extract_json_obj`,
`_normalize_qcm`, `_parse_qcm_from_text`, `_answer_to_index`, and the
quiz-session methods `qcm_save_choice` / `qcm_render_question` /
`qcm_prev` / `qcm_next` / `qcm_finish` / `gui_generate_qcm`) and
`src/cartable_numerique/src/ollama_client.py` (`ask_ollama`).

Decoded JSON values are embedded as the inductive `JsonVal` (numbers are
modelled as integers: no claim under consideration involves non-integer
JSON numbers).  A Python exception escaping a helper is modelled as
`Except.error ()`.  Python string operations (`strip`, `upper`,
`isdigit`, `str()`) and the concrete regular expressions appearing in
the source are modelled by explicit character-list functions, restricted
to the ASCII range plus the accented letters appearing in the source
patterns.
-/

namespace Cartable

/-- Characters stripped by Python `str.strip()` (ASCII whitespace). -/
def pyWsChar (c : Char) : Bool :=
  c = ' ' || c = '\t' || c = '\n' || c = '\r' || c = '\x0b' || c = '\x0c'

/-- `str.strip()` on a character list. -/
def pyStripL (l : List Char) : List Char :=
  ((l.dropWhile pyWsChar).reverse.dropWhile pyWsChar).reverse

/-- `str.strip()` on a string. -/
def pyStrip (s : String) : String :=
  ⟨pyStripL s.data⟩

/-- ASCII decimal digit. -/
def isDig (c : Char) : Bool :=
  '0' ≤ c && c ≤ '9'

/-- `str.upper()` restricted to ASCII letters plus the accented letters
used by the source's regular expressions. -/
def pyUpperChar (c : Char) : Char :=
  if 'a' ≤ c && c ≤ 'z' then Char.ofNat (c.toNat - 32)
  else if c = 'é' then 'É'
  else if c = 'è' then 'È'
  else c

def pyUpperL (l : List Char) : List Char := l.map pyUpperChar

/-- Decimal value of a Unicode decimal digit (category Nd), over the
modelled repertoire: ASCII, Arabic-Indic, Extended Arabic-Indic and
Devanagari digits.  These are exactly the digit-like characters
`int()` converts; `none` for everything else — in particular for the
superscript digits, which `str.isdigit` accepts but `int()` rejects. -/
def charDigitVal (c : Char) : Option Nat :=
  if '0' ≤ c && c ≤ '9' then some (c.toNat - '0'.toNat)
  else if 0x660 ≤ c.toNat && c.toNat ≤ 0x669 then some (c.toNat - 0x660)
  else if 0x6F0 ≤ c.toNat && c.toNat ≤ 0x6F9 then some (c.toNat - 0x6F0)
  else if 0x966 ≤ c.toNat && c.toNat ≤ 0x96F then some (c.toNat - 0x966)
  else none

/-- Python `str.isdigit` for one character, over the modelled
repertoire: the decimal (Nd) digits above plus the superscript digits
`¹ ² ³ ⁰ ⁴`-`⁹`, which are isdigit-true yet not `int()`-convertible. -/
def pyIsDigitChar (c : Char) : Bool :=
  (charDigitVal c).isSome || c = '¹' || c = '²' || c = '³' ||
    c.toNat = 0x2070 || (0x2074 ≤ c.toNat && c.toNat ≤ 0x2079)

/-- Python `s.isdigit()`. -/
def pyIsDigit (l : List Char) : Bool :=
  !l.isEmpty && l.all pyIsDigitChar

/-- Python `int(s)` for an isdigit-true `s`: assembles the base-10
value when every character is a decimal (Nd) digit; `none` models the
`ValueError` raised when a character (e.g. `'²'`) is digit-like but not
decimal. -/
def pyIntOfDigits (l : List Char) : Option Nat :=
  l.foldl (fun acc c =>
    match acc, charDigitVal c with
    | some a, some d => some (a * 10 + d)
    | _, _ => none) (some 0)

/-- Word character for the `\b` boundary of Python's `re` module
(Unicode alphanumerics and underscore), over the modelled repertoire:
ASCII letters and digits, underscore, the accented letters appearing in
the source's patterns, and the modelled digit-like characters (all of
which are alphanumeric to Python). -/
def isWordChar (c : Char) : Bool :=
  ('A' ≤ c && c ≤ 'Z') || ('a' ≤ c && c ≤ 'z') || isDig c || c = '_'
    || c = 'É' || c = 'é' || c = 'È' || c = 'è' || pyIsDigitChar c

/-- Numeric value of a digit string (Python `int(s)` for `s.isdigit()`). -/
def digitsToNat (l : List Char) : Nat :=
  l.foldl (fun acc c => acc * 10 + (c.toNat - '0'.toNat)) 0

/-- Decoded JSON values (Python objects produced by `json.loads`).
Numbers are modelled as integers; `null` doubles as Python `None`. -/
inductive JsonVal where
  | null
  | bool (b : Bool)
  | num (n : Int)
  | str (s : String)
  | arr (elems : List JsonVal)
  | obj (fields : List (String × JsonVal))

namespace JsonVal

/-- Python truthiness of a decoded JSON value. -/
def pyTruthy : JsonVal → Bool
  | .null => false
  | .bool b => b
  | .num n => n != 0
  | .str s => s != ""
  | .arr xs => !xs.isEmpty
  | .obj kvs => !kvs.isEmpty

/-- Python `a or b`. -/
def pyOr (a b : JsonVal) : JsonVal :=
  if a.pyTruthy then a else b

mutual

/-- Python `str()` / `repr()` of a decoded JSON value (string escaping
inside nested reprs is not modelled; no claim exercises it). -/
def pyRepr : JsonVal → String
  | .null => "None"
  | .bool true => "True"
  | .bool false => "False"
  | .num n => toString n
  | .str s => "'" ++ s ++ "'"
  | .arr xs => "[" ++ String.intercalate ", " (pyReprList xs) ++ "]"
  | .obj kvs => "\x7b" ++ String.intercalate ", " (pyReprObj kvs) ++ "\x7d"

def pyReprList : List JsonVal → List String
  | [] => []
  | x :: xs => pyRepr x :: pyReprList xs

def pyReprObj : List (String × JsonVal) → List String
  | [] => []
  | (k, v) :: kvs => ("'" ++ k ++ "': " ++ pyRepr v) :: pyReprObj kvs

end

/-- Python `str()` of a decoded JSON value. -/
def pyStr : JsonVal → String
  | .str s => s
  | v => pyRepr v

/-- Python `len()`; `none` models a `TypeError` being raised. -/
def pyLen : JsonVal → Option Nat
  | .str s => some s.length
  | .arr xs => some xs.length
  | .obj kvs => some kvs.length
  | _ => none

end JsonVal

/-- `dict.get(k)` with Python `None` collapsed to `JsonVal.null`
(decoded JSON `null` *is* Python `None`). -/
def jget (kvs : List (String × JsonVal)) (k : String) : JsonVal :=
  match kvs.lookup k with
  | some v => v
  | none => .null

/-! ### A model of `json.loads`

Recursive-descent parser over a character list, with fuel for
termination.  Strict like Python's `json.loads`: no trailing data,
no trailing commas, JSON whitespace only.  Divergences from the real
`json.loads`, none of which is exercised by any claim: numbers with a
fraction or exponent part are rejected (numbers are modelled as
integers), and `\u` escapes are rejected. -/

def jWs (c : Char) : Bool :=
  c = ' ' || c = '\t' || c = '\n' || c = '\r'

def skipJWs (l : List Char) : List Char := l.dropWhile jWs

/-- Parse the digit run of a JSON integer (no leading zero; rejects a
following `.`/`e`/`E`, i.e. non-integer numbers are unsupported). -/
def pjNat (l : List Char) : Option (Nat × List Char) :=
  match l with
  | [] => none
  | c :: r =>
    if c = '0' then
      match r with
      | d :: _ =>
        if isDig d || d = '.' || d = 'e' || d = 'E' then none else some (0, r)
      | [] => some (0, [])
    else if isDig c then
      let ds := (c :: r).takeWhile isDig
      let rest := (c :: r).dropWhile isDig
      match rest with
      | d :: _ => if d = '.' || d = 'e' || d = 'E' then none
                  else some (digitsToNat ds, rest)
      | [] => some (digitsToNat ds, [])
    else none

/-- Parse a JSON string body (after the opening quote).  Simple escapes
only; raw control characters are rejected as in strict `json.loads`. -/
def pjStr : Nat → List Char → Option (String × List Char)
  | 0, _ => none
  | _, [] => none
  | fuel + 1, c :: r =>
    if c = '"' then some ("", r)
    else if c = '\\' then
      match r with
      | e :: r2 =>
        let ce : Option Char :=
          if e = '"' then some '"'
          else if e = '\\' then some '\\'
          else if e = '/' then some '/'
          else if e = 'n' then some '\n'
          else if e = 't' then some '\t'
          else if e = 'r' then some '\r'
          else if e = 'b' then some '\x08'
          else if e = 'f' then some '\x0c'
          else none
        match ce with
        | some ch =>
          match pjStr fuel r2 with
          | some (s, rest) => some (⟨ch :: s.data⟩, rest)
          | none => none
        | none => none
      | [] => none
    else if c.toNat < 32 then none
    else
      match pjStr fuel r with
      | some (s, rest) => some (⟨c :: s.data⟩, rest)
      | none => none

/-- Insert a field into an object, replacing an existing key in place
(Python dict semantics for duplicate keys: last value wins, first
position kept). -/
def addField (kvs : List (String × JsonVal)) (k : String) (v : JsonVal) :
    List (String × JsonVal) :=
  match kvs with
  | [] => [(k, v)]
  | (k0, v0) :: rest =>
    if k0 = k then (k0, v) :: rest else (k0, v0) :: addField rest k v

mutual

/-- Parse one JSON value at the head of the input. -/
def pj : Nat → List Char → Option (JsonVal × List Char)
  | 0, _ => none
  | fuel + 1, l =>
    match l with
    | 'n' :: 'u' :: 'l' :: 'l' :: r => some (.null, r)
    | 't' :: 'r' :: 'u' :: 'e' :: r => some (.bool true, r)
    | 'f' :: 'a' :: 'l' :: 's' :: 'e' :: r => some (.bool false, r)
    | '"' :: r =>
      match pjStr fuel r with
      | some (s, rest) => some (.str s, rest)
      | none => none
    | '[' :: r =>
      match skipJWs r with
      | ']' :: r2 => some (.arr [], r2)
      | r1 => pjElems fuel r1 []
    | '{' :: r =>
      match skipJWs r with
      | '}' :: r2 => some (.obj [], r2)
      | r1 => pjMembers fuel r1 []
    | '-' :: r =>
      match pjNat r with
      | some (n, rest) => some (.num (-(n : Int)), rest)
      | none => none
    | c :: _ =>
      if isDig c then
        match pjNat l with
        | some (n, rest) => some (.num (n : Int), rest)
        | none => none
      else none
    | [] => none

/-- Parse the elements of a non-empty JSON array. -/
def pjElems (fuel : Nat) (l : List Char) (acc : List JsonVal) :
    Option (JsonVal × List Char) :=
  match fuel with
  | 0 => none
  | fuel + 1 =>
    match pj fuel l with
    | none => none
    | some (v, r) =>
      match skipJWs r with
      | ',' :: r2 => pjElems fuel (skipJWs r2) (v :: acc)
      | ']' :: r2 => some (.arr (v :: acc).reverse, r2)
      | _ => none

/-- Parse the members of a non-empty JSON object. -/
def pjMembers (fuel : Nat) (l : List Char) (acc : List (String × JsonVal)) :
    Option (JsonVal × List Char) :=
  match fuel with
  | 0 => none
  | fuel + 1 =>
    match l with
    | '"' :: r =>
      match pjStr fuel r with
      | none => none
      | some (k, r1) =>
        match skipJWs r1 with
        | ':' :: r2 =>
          match pj fuel (skipJWs r2) with
          | none => none
          | some (v, r3) =>
            match skipJWs r3 with
            | ',' :: r4 => pjMembers fuel (skipJWs r4) (addField acc k v)
            | '}' :: r4 => some (.obj (addField acc k v), r4)
            | _ => none
        | _ => none
    | _ => none

end

/-- Model of Python `json.loads`: parse the whole string as one JSON
value, rejecting trailing data. -/
def jsonLoads (s : String) : Option JsonVal :=
  match pj (2 * s.length + 8) (skipJWs s.data) with
  | some (v, r) => if skipJWs r = [] then some v else none
  | none => none

/-! ### `_extract_json_obj` (app_gui.py lines 71-99) -/

/-- Index of the first occurrence of `c`. -/
def firstIdxOf (c : Char) (l : List Char) : Option Nat :=
  l.findIdx? (fun d => d = c)

/-- Index of the last occurrence of `c`. -/
def lastIdxOf (c : Char) (l : List Char) : Option Nat :=
  match (l.reverse.findIdx? (fun d => d = c)) with
  | some i => some (l.length - 1 - i)
  | none => none

/-- The substring matched by the greedy regex `\x7b[\s\S]*\x7d` (with
`op = '\x7b'`, `cl = '\x7d'`): from the first `op` to the last `cl`,
provided the former precedes the latter.  This is what
`re.search(r"\\\x7b[\s\S]*\\\x7d", t)` finds: a span from the first
opening character to the last closing character, NOT the first balanced
group. -/
def greedySpan (op cl : Char) (l : List Char) : Option (List Char) :=
  match firstIdxOf op l, lastIdxOf cl l with
  | some i, some j => if i < j then some ((l.drop i).take (j - i + 1)) else none
  | _, _ => none

/-- `_extract_json_obj`: direct parse of the stripped text, else parse
of the greedy first-brace-to-last-brace span, else parse of the greedy
first-bracket-to-last-bracket span. -/
def extract_json_obj (text : String) : Option JsonVal :=
  if text = "" then none
  else
    let t := pyStrip text
    match jsonLoads t with
    | some v => some v
    | none =>
      match (greedySpan '{' '}' t.data).bind (fun l => jsonLoads ⟨l⟩) with
      | some v => some v
      | none => (greedySpan '[' ']' t.data).bind (fun l => jsonLoads ⟨l⟩)

/-! ### `_normalize_qcm` (app_gui.py lines 102-154) -/

/-- A normalized question as stored in the `questions` list built by
`_normalize_qcm`.  `options` is kept as a decoded value because the
source stores whatever survives its option massaging (a list of strings
in the ordinary cases); `answer` is the raw, untyped token. -/
structure NormQ where
  question : String
  options : JsonVal
  answer : JsonVal
  explanation : String

/-- `q.get("question") or q.get("q") or ""` (value before `.strip()`). -/
def qTextSel (kvs : List (String × JsonVal)) : JsonVal :=
  JsonVal.pyOr (JsonVal.pyOr (jget kvs "question") (jget kvs "q")) (.str "")

/-- `q.get("options") or q.get("choices") or q.get("answers") or []`. -/
def optsSel (kvs : List (String × JsonVal)) : JsonVal :=
  JsonVal.pyOr
    (JsonVal.pyOr (JsonVal.pyOr (jget kvs "options") (jget kvs "choices"))
      (jget kvs "answers"))
    (.arr [])

/-- `q.get("answer") or q.get("correct") or q.get("correct_answer")`. -/
def ansSel (kvs : List (String × JsonVal)) : JsonVal :=
  JsonVal.pyOr (JsonVal.pyOr (jget kvs "answer") (jget kvs "correct"))
    (jget kvs "correct_answer")

/-- `q.get("explanation") or q.get("exp") or ""` (before `.strip()`). -/
def expSel (kvs : List (String × JsonVal)) : JsonVal :=
  JsonVal.pyOr (JsonVal.pyOr (jget kvs "explanation") (jget kvs "exp")) (.str "")

def lettersAF : List String := ["A", "B", "C", "D", "E", "F"]

/-- The letter-keyed-mapping branch: `\x7b"A": ...\x7d` becomes the list
`["A) ...", ...]` in the fixed order A-F, skipping absent letters. -/
def convOpts (v : JsonVal) : JsonVal :=
  match v with
  | .obj okvs =>
    .arr (lettersAF.filterMap (fun k =>
      (okvs.lookup k).map (fun w => .str (k ++ ") " ++ pyStrip w.pyStr))))
  | x => x

/-- The list branch: `[str(x).strip() for x in opts if str(x).strip()]`. -/
def cleanOpts (v : JsonVal) : JsonVal :=
  match v with
  | .arr xs =>
    .arr (((xs.map (fun x => pyStrip x.pyStr)).filter (fun s => s ≠ "")).map .str)
  | x => x

/-- `v` if it is a string, else `none` — a `.strip()` on a non-string
value models the `AttributeError` the source would raise. -/
def asStr (v : JsonVal) : Option String :=
  match v with
  | .str s => some s
  | _ => none

/-- Per-question body of `_normalize_qcm`'s loop.  `.error ()` models an
exception escaping (non-string `.strip()` target, or `len()` of a
non-sized value); `.ok none` models `continue` (entry dropped);
evaluation order follows the source: question text first, then options
massaging, then answer and explanation recovery, then the
`if not question or len(opts) < 2` filter with Python short-circuit. -/
def processQ (q : JsonVal) : Except Unit (Option NormQ) :=
  match q with
  | .obj kvs =>
    match asStr (qTextSel kvs) with
    | none => .error ()
    | some s0 =>
      let question := pyStrip s0
      let opts := cleanOpts (convOpts (optsSel kvs))
      let ans := ansSel kvs
      match asStr (expSel kvs) with
      | none => .error ()
      | some e0 =>
        if question = "" then .ok none
        else
          match opts.pyLen with
          | none => .error ()
          | some len =>
            if len < 2 then .ok none
            else .ok (some ⟨question, opts, ans, pyStrip e0⟩)
  | _ => .ok none

/-- The loop of `_normalize_qcm`, accumulating surviving questions in
order; an exception from any iteration escapes. -/
def processAll : List JsonVal → Except Unit (List NormQ)
  | [] => .ok []
  | q :: rest =>
    match processQ q with
    | .error e => .error e
    | .ok r =>
      match processAll rest with
      | .error e => .error e
      | .ok l =>
        match r with
        | some nq => .ok (nq :: l)
        | none => .ok l

/-- `_normalize_qcm`.  Returns `.ok none` for Python `None` ("no
result"), `.ok (some qs)` for `\x7b"questions": qs\x7d`, `.error ()` if
an exception escapes. -/
def normalize_qcm (data : JsonVal) : Except Unit (Option (List NormQ)) :=
  match data with
  | .null => .ok none
  | _ =>
    let d := match data with
      | .arr xs => JsonVal.obj [("questions", .arr xs)]
      | x => x
    match d with
    | .obj kvs =>
      let qsv : Option JsonVal :=
        match kvs.lookup "questions" with
        | some v => some v
        | none => kvs.lookup "quiz"
      match qsv with
      | some (.arr qs) =>
        if qs.isEmpty then .ok none
        else
          match processAll qs with
          | .error e => .error e
          | .ok out => if out.isEmpty then .ok none else .ok (some out)
      | _ => .ok none
    | _ => .ok none

/-! ### Spec-side description of normalization (for claim C2)

The functions below restate, independently of `processQ`'s
control flow, which entries survive: exactly the mapping entries whose
recovered text is non-empty and whose trimmed, non-empty option count
is at least 2. -/

/-- The string content of a selected field; empty when the selection
bottomed out at the falsy default. -/
def strD (v : JsonVal) : String :=
  match v with
  | .str s => s
  | _ => ""

/-- Recovered question text of a question mapping. -/
def recoveredText (kvs : List (String × JsonVal)) : String :=
  pyStrip (strD (qTextSel kvs))

/-- Recovered option list of a question mapping: letter-keyed mappings
become `"L) value"` entries in letter order; sequences are trimmed with
empty entries dropped. -/
def recoveredOptions (kvs : List (String × JsonVal)) : List String :=
  match cleanOpts (convOpts (optsSel kvs)) with
  | .arr xs => xs.filterMap asStr
  | _ => []

/-- Spec-side survival: a question entry survives normalization iff it
is a mapping with non-empty recovered text and at least two trimmed,
non-empty options. -/
def survives (q : JsonVal) : Option NormQ :=
  match q with
  | .obj kvs =>
    if recoveredText kvs = "" then none
    else if (recoveredOptions kvs).length < 2 then none
    else some ⟨recoveredText kvs, .arr ((recoveredOptions kvs).map .str),
               ansSel kvs, pyStrip (strD (expSel kvs))⟩
  | _ => none

/-- The question-candidate list the normalizer iterates over. -/
def questionsOf (data : JsonVal) : List JsonVal :=
  match data with
  | .null => []
  | .arr xs => xs
  | .obj kvs =>
    match kvs.lookup "questions" with
    | some (.arr xs) => xs
    | some _ => []
    | none =>
      match kvs.lookup "quiz" with
      | some (.arr xs) => xs
      | _ => []
  | _ => []

/-- Spec-side normalization result: the survivors in original order,
"no result" iff none survives. -/
def specNormalize (data : JsonVal) : Option (List NormQ) :=
  match data with
  | .null => none
  | _ =>
    let l := (questionsOf data).filterMap survives
    if l.isEmpty then none else some l

/-- Well-formedness of one question candidate, delimiting the inputs on
which the normalizer does not raise: the selected question and
explanation values must be strings (when the selection does not bottom
out at the falsy string default it could be any truthy value), and the
selected options value must be a sequence or a mapping. -/
def qWF (q : JsonVal) : Bool :=
  match q with
  | .obj kvs =>
    (asStr (qTextSel kvs)).isSome && (asStr (expSel kvs)).isSome &&
      (match optsSel kvs with
       | .arr _ => true
       | .obj _ => true
       | _ => false)
  | _ => true

/-- Well-formedness of a whole decoded value for normalization. -/
def dataWF (data : JsonVal) : Prop :=
  ∀ q ∈ questionsOf data, qWF q = true

/-! ### `_answer_to_index` (app_gui.py lines 238-264) -/

/-- Leftmost match of `re.search(r"\b([A-F])\b", s)`: the first
character in `A`-`F` with a word boundary on each side.  `prevW` says
whether the character before the scan head is a word character. -/
def findLetterAux : Bool → List Char → Option Char
  | _, [] => none
  | prevW, c :: rest =>
    if ('A' ≤ c && c ≤ 'F') && !prevW &&
        (match rest with
         | [] => true
         | d :: _ => !isWordChar d) then
      some c
    else findLetterAux (isWordChar c) rest

/-- First standalone letter `A`-`F` of a string (to be applied to the
uppercased string, as the source does). -/
def findStandaloneLetter (l : List Char) : Option Char :=
  findLetterAux false l

/-- The textual branch of `_answer_to_index`, applied to the stripped
`str()` of the answer: standalone-letter search first, then the
all-digits interpretation (0-based, falling back to 1-based).
`.error ()` models the `ValueError` that `int(s)` raises — and that
escapes `_answer_to_index`, which has no handler — when `s.isdigit()`
holds but `s` contains a non-decimal digit such as `'\u00b2'`. -/
def textResolve (s : String) (n : Nat) : Except Unit (Option Nat) :=
  if s = "" then .ok none
  else
    match findStandaloneLetter (pyUpperL s.data) with
    | some c =>
      .ok (if c.toNat - 'A'.toNat < n then some (c.toNat - 'A'.toNat) else none)
    | none =>
      if pyIsDigit s.data then
        match pyIntOfDigits s.data with
        | none => .error ()
        | some val =>
          .ok (if val < n then some val
            else if 1 ≤ val ∧ val ≤ n then some (val - 1)
            else none)
      else .ok none

/-- `_answer_to_index`: convert a raw answer token into a 0-based option
index (`.ok (some i)`), "unknown" (`.ok none`), or a raised
`ValueError` (`.error ()`, reachable only through the digit branch).
`answer` is the decoded value stored by normalization (`.null` is
Python `None`); a Python `bool` is an `int` there, so `.bool` takes the
integer branch. -/
def answer_to_index (answer : JsonVal) (options : List String) :
    Except Unit (Option Nat) :=
  let n := options.length
  match answer with
  | .null => .ok none
  | .num z => .ok (if 0 ≤ z ∧ z < (n : Int) then some z.toNat else none)
  | .bool b =>
    .ok (if (if b then 1 else 0) < n then some (if b then 1 else 0) else none)
  | v => textResolve (pyStrip v.pyStr) n

/-- Spec-side restatement of the resolver on the cases the claim
enumerates (absent, integer, textual), with the digit branch raising
exactly on isdigit-true, non-`int()`-convertible strings. -/
def resolveSpec (answer : JsonVal) (options : List String) :
    Except Unit (Option Nat) :=
  let n := options.length
  match answer with
  | .null => .ok none
  | .num z => .ok (if 0 ≤ z ∧ z < (n : Int) then some z.toNat else none)
  | .str s0 =>
    let s := pyStrip s0
    if s = "" then .ok none
    else
      match findStandaloneLetter (pyUpperL s.data) with
      | some c =>
        .ok (if c.toNat - 'A'.toNat < n then some (c.toNat - 'A'.toNat) else none)
      | none =>
        if pyIsDigit s.data then
          match pyIntOfDigits s.data with
          | none => .error ()
          | some val =>
            .ok (if val < n then some val
              else if 1 ≤ val ∧ val ≤ n then some (val - 1)
              else none)
        else .ok none
  | _ => .ok none

/-! ### `_parse_qcm_from_text` (app_gui.py lines 157-235)

Each regular expression of the source is modelled by an explicit
character-list matcher with the same semantics (case-insensitivity,
greediness/laziness, word boundaries, anchors), specialised to the
concrete pattern. -/

/-- `t.replace("\r\n", "\n")`. -/
def replaceCRLF : List Char → List Char
  | '\r' :: '\n' :: r => '\n' :: replaceCRLF r
  | c :: r => c :: replaceCRLF r
  | [] => []

/-- The lookahead `(?=Q\d+\s*[:\-\)])` of the block-splitting regex
(case-sensitive, as in the source). -/
def lookQ (l : List Char) : Bool :=
  match l with
  | 'Q' :: r =>
    if (r.takeWhile isDig).isEmpty then false
    else
      match (r.dropWhile isDig).dropWhile pyWsChar with
      | d :: _ => d = ':' || d = '-' || d = ')'
      | [] => false
  | _ => false

/-- `re.split(r"\n(?=Q\d+\s*[:\-\)])", l)`: split at each newline whose
lookahead matches, the newline being consumed. -/
def splitQAux : List Char → List Char → List (List Char)
  | cur, [] => [cur.reverse]
  | cur, '\n' :: r =>
    if lookQ r then cur.reverse :: splitQAux [] r else splitQAux ('\n' :: cur) r
  | cur, c :: r => splitQAux (c :: cur) r

/-- Blocks of the text: split `"\n" ++ t` at question markers, strip
each part, drop empty parts. -/
def splitQBlocks (t : List Char) : List (List Char) :=
  ((splitQAux [] ('\n' :: t)).map pyStripL).filter (fun p => !p.isEmpty)

/-- `re.match(r"Q(\d+)\s*[:\-\)]\s*(.*)", block, I|S)` followed by
`.group(2).strip()`: the stripped remainder after the question marker,
or `none` if the block does not start with one. -/
def matchQn (b : List Char) : Option (List Char) :=
  match b with
  | c :: r =>
    if c = 'Q' || c = 'q' then
      if (r.takeWhile isDig).isEmpty then none
      else
        match (r.dropWhile isDig).dropWhile pyWsChar with
        | d :: r2 =>
          if d = ':' || d = '-' || d = ')' then some (pyStripL r2) else none
        | [] => none
    else none
  | [] => none

/-- Case-insensitive literal prefix match, returning the remainder. -/
def ciStarts : List Char → List Char → Option (List Char)
  | [], l => some l
  | _ :: _, [] => none
  | p :: ps, c :: cs =>
    if pyUpperChar c = pyUpperChar p then ciStarts ps cs else none

/-- `(?:ANSWER|R[ÉE]PONSE)` at the head of the input (IGNORECASE). -/
def answerKw (l : List Char) : Option (List Char) :=
  match ciStarts "ANSWER".data l with
  | some r => some r
  | none =>
    match l with
    | r :: e :: rest =>
      if pyUpperChar r = 'R' && (pyUpperChar e = 'É' || pyUpperChar e = 'E') then
        ciStarts "PONSE".data rest
      else none
    | _ => none

/-- `(?:EXPLANATION|EXPLICATION)` at the head of the input. -/
def explKw (l : List Char) : Option (List Char) :=
  match ciStarts "EXPLANATION".data l with
  | some r => some r
  | none => ciStarts "EXPLICATION".data l

/-- Keyword then `\s*[:\-]`, returning the remainder after the
delimiter.  This is the split pattern for the answer section. -/
def answerMarker (l : List Char) : Option (List Char) :=
  match answerKw l with
  | none => none
  | some r =>
    match r.dropWhile pyWsChar with
    | d :: rest => if d = ':' || d = '-' then some rest else none
    | [] => none

/-- Keyword then `\s*[:\-]` for the explanation section. -/
def explMarker (l : List Char) : Option (List Char) :=
  match explKw l with
  | none => none
  | some r =>
    match r.dropWhile pyWsChar with
    | d :: rest => if d = ':' || d = '-' then some rest else none
    | [] => none

/-- Letter class `[A-F]` under IGNORECASE. -/
def isLetAF (c : Char) : Bool :=
  ('A' ≤ c && c ≤ 'F') || ('a' ≤ c && c ≤ 'f')

/-- Option delimiter class `[\)\.\:\-]`. -/
def isDelim (c : Char) : Bool :=
  c = ')' || c = '.' || c = ':' || c = '-'

/-- Full answer-extraction match at the head of the input:
`(?:ANSWER|R[ÉE]PONSE)\s*[:\-]\s*([A-F])\b`, returning the uppercased
captured letter. -/
def answerFull (l : List Char) : Option Char :=
  match answerMarker l with
  | none => none
  | some r =>
    match r.dropWhile pyWsChar with
    | c :: rest =>
      if isLetAF c &&
          (match rest with
           | [] => true
           | d :: _ => !isWordChar d) then
        some (pyUpperChar c)
      else none
    | [] => none

/-- `re.search` for the answer letter: leftmost match wins. -/
def searchAnswerIn : List Char → Option Char
  | [] => none
  | c :: rest =>
    match answerFull (c :: rest) with
    | some ch => some ch
    | none => searchAnswerIn rest

/-- `re.search` for the explanation: the stripped text after the
leftmost explanation marker. -/
def searchExplIn : List Char → Option (List Char)
  | [] => none
  | c :: rest =>
    match explMarker (c :: rest) with
    | some r => some (pyStripL r)
    | none => searchExplIn rest

/-- `re.split(pat, l)[0]`: the prefix before the leftmost position
where `p` holds (the whole input if none). -/
def cutBeforeAux (p : List Char → Bool) : List Char → List Char
  | [] => []
  | c :: rest => if p (c :: rest) then [] else c :: cutBeforeAux p rest

/-- The "clean" remainder of a block: the remainder text cut before the
answer marker, then before the explanation marker. -/
def restCleanFrom (rest : List Char) : List Char :=
  cutBeforeAux (fun l => (explMarker l).isSome)
    (cutBeforeAux (fun l => (answerMarker l).isSome) rest)

/-- Split a character list into lines at `'\n'`. -/
def splitLines : List Char → List (List Char)
  | [] => [[]]
  | '\n' :: rest => [] :: splitLines rest
  | c :: rest =>
    match splitLines rest with
    | h :: t => (c :: h) :: t
    | [] => [[c]]

/-- One line of the multi-line option pattern
`^\s*([A-F])[\)\.\:\-]\s*(.+)$` (I|M): leading whitespace, a letter, a
delimiter, and a non-empty remainder; yields the uppercased letter and
the stripped remainder (which is what the source formats). -/
def lineOpt (line : List Char) : Option (Char × List Char) :=
  match line.dropWhile pyWsChar with
  | c :: d :: rest =>
    if isLetAF c && isDelim d && !rest.isEmpty then
      some (pyUpperChar c, pyStripL rest)
    else none
  | _ => none

/-- All multi-line option matches of the clean remainder. -/
def multiOpts (rc : List Char) : List (Char × List Char) :=
  (splitLines rc).filterMap lineOpt

/-- Question text for the multi-line strategy: everything before the
first option line, stripped. -/
def joinLines : List (List Char) → List Char
  | [] => []
  | [l] => l
  | l :: rest => l ++ '\n' :: joinLines rest

def qTextMulti (rc : List Char) : List Char :=
  let lines := splitLines rc
  pyStripL (joinLines (lines.take (lines.findIdx (fun ln => (lineOpt ln).isSome))))

/-- The inline lookahead `(?=(?:\s+[A-F][\)\.\:\-])|$)` (`$` without
MULTILINE: end of input or just before a sole trailing newline). -/
def lookInline (l : List Char) : Bool :=
  match l with
  | [] => true
  | ['\n'] => true
  | _ =>
    let ws := l.takeWhile pyWsChar
    match l.dropWhile pyWsChar with
    | c :: d :: _ => !ws.isEmpty && isLetAF c && isDelim d
    | _ => false

/-- Lazy body `([^A-F]+?)` of the inline pattern (IGNORECASE, so both
cases of `a`-`f` are excluded): grow one character at a time until the
lookahead holds. -/
def bodyScan : List Char → List Char → Option (List Char × List Char)
  | acc, rest =>
    if lookInline rest then some (acc.reverse, rest)
    else
      match rest with
      | c :: r2 => if !isLetAF c then bodyScan (c :: acc) r2 else none
      | [] => none

/-- Start the lazy body right after `k` whitespace characters. -/
def inlineAttempt (r : List Char) (k : Nat) : Option (List Char × List Char) :=
  match r.drop k with
  | c :: r2 => if !isLetAF c then bodyScan [c] r2 else none
  | [] => none

/-- `\s*` before the body is greedy: try the maximal whitespace run
first, backtracking one character at a time. -/
def tryWsAux (r : List Char) : Nat → Option (List Char × List Char)
  | 0 => inlineAttempt r 0
  | k + 1 =>
    match inlineAttempt r (k + 1) with
    | some res => some res
    | none => tryWsAux r k

/-- One inline match attempt at the head of the input:
`([A-F])[\)\.\:\-]\s*([^A-F]+?)(?=(?:\s+[A-F][\)\.\:\-])|$)`.
Returns (raw letter, body, remainder after the match). -/
def matchInlineAt (l : List Char) : Option (Char × List Char × List Char) :=
  match l with
  | c :: d :: r =>
    if isLetAF c && isDelim d then
      match tryWsAux r (r.takeWhile pyWsChar).length with
      | some (body, after) => some (c, body, after)
      | none => none
    else none
  | _ => none

/-- `re.findall` of the inline pattern: leftmost, non-overlapping. -/
def inlineScanAux : Nat → List Char → List (Char × List Char)
  | 0, _ => []
  | fuel + 1, l =>
    match l with
    | [] => []
    | _ :: rest =>
      match matchInlineAt l with
      | some (letter, body, after) => (letter, body) :: inlineScanAux fuel after
      | none => inlineScanAux fuel rest

def inlineOpts (rc : List Char) : List (Char × List Char) :=
  inlineScanAux (rc.length + 1) rc

/-- `re.split(r"[A-F][\)\.\:\-]\s*", rc, 1, I)[0]`: prefix before the
first letter+delimiter occurrence. -/
def cutBeforeLetterDelim : List Char → List Char
  | [] => []
  | [c] => [c]
  | c :: d :: rest =>
    if isLetAF c && isDelim d then [] else c :: cutBeforeLetterDelim (d :: rest)

/-- A question recovered by the text-block parser: `answer` is the raw
answer letter (or absent), exactly the dict built at app_gui.py
lines 225-230. -/
structure TQuestion where
  question : String
  options : List String
  answer : Option String
  explanation : String
deriving Repr, DecidableEq

/-- The per-block body of `_parse_qcm_from_text`'s loop. -/
def blockToQ (b : List Char) : Option TQuestion :=
  match matchQn b with
  | none => none
  | some rest =>
    let ansL : Option String := (searchAnswerIn rest).map (fun c => ⟨[c]⟩)
    let expT : String :=
      match searchExplIn rest with
      | some e => ⟨e⟩
      | none => ""
    let rc := restCleanFrom rest
    let multi := multiOpts rc
    if 2 ≤ multi.length then
      let q0 := qTextMulti rc
      some ⟨if q0.isEmpty then "(Question)" else ⟨q0⟩,
            multi.map (fun p => (⟨[p.1]⟩ : String) ++ ") " ++ (⟨p.2⟩ : String)),
            ansL, expT⟩
    else
      let inl := inlineOpts rc
      if 2 ≤ inl.length then
        let q0 := pyStripL (cutBeforeLetterDelim rc)
        some ⟨if q0.isEmpty then "(Question)" else ⟨q0⟩,
              inl.map (fun p =>
                (⟨[pyUpperChar p.1]⟩ : String) ++ ") " ++ (⟨pyStripL p.2⟩ : String)),
              ansL, expT⟩
      else none

/-- The clean remainder a block is judged on (for stating claim C8):
empty for blocks that do not start with a question marker. -/
def restCleanOf (b : List Char) : List Char :=
  match matchQn b with
  | some rest => restCleanFrom rest
  | none => []

/-- `_parse_qcm_from_text`. -/
def parse_qcm_from_text (raw : String) : Option (List TQuestion) :=
  if raw = "" then none
  else
    let t := replaceCRLF (pyStripL raw.data)
    let qs := (splitQBlocks t).filterMap blockToQ
    if qs.isEmpty then none else some qs

/-! ### Quiz session state machine
(app_gui.py lines 881-959: `qcm_render_question`, `qcm_save_choice`,
`qcm_prev`, `qcm_next`, `qcm_finish`) -/

/-- A question of a loaded canonical quiz: an ordered option list and
the raw answer token to be resolved at scoring time. -/
structure SQuestion where
  question : String
  options : List String
  answer : JsonVal
  explanation : String

/-- The ephemeral quiz session: `questions`/`index`/`answers` model
`qcm_data`/`qcm_index`/`qcm_user_answers`, and `choice` models the
displayed selection `qcm_choice_var` (`-1` is the "no selection"
sentinel set by `qcm_render_question`). -/
structure Session where
  questions : List SQuestion
  index : Nat
  answers : List (Nat × Int)
  choice : Int

/-- Lookup in the recorded-answers mapping (`dict.get`). -/
def lookupA : List (Nat × Int) → Nat → Option Int
  | [], _ => none
  | (k, v) :: r, j => if k = j then some v else lookupA r j

/-- Store in the recorded-answers mapping (`dict[k] = v`). -/
def setA : List (Nat × Int) → Nat → Int → List (Nat × Int)
  | [], k, v => [(k, v)]
  | (k0, v0) :: r, k, v =>
    if k0 = k then (k0, v) :: r else (k0, v0) :: setA r k v

/-- `qcm_save_choice`: record the displayed selection at the current
index, a no-op when the selection is the negative sentinel. -/
def qcm_save_choice (s : Session) : Session :=
  if 0 ≤ s.choice then { s with answers := setA s.answers s.index s.choice }
  else s

/-- The state effect of `qcm_render_question`: the displayed selection
is reset from the recorded answer of the current index (line 893). -/
def qcm_render (s : Session) : Session :=
  { s with choice := (lookupA s.answers s.index).getD (-1) }

/-- `qcm_prev`: save the displayed selection, step back unless at 0,
re-render. -/
def qcm_prev (s : Session) : Session :=
  let s1 := qcm_save_choice s
  let s2 := if 0 < s1.index then { s1 with index := s1.index - 1 } else s1
  qcm_render s2

/-- `qcm_next`: save the displayed selection, step forward unless at
the last question, re-render. -/
def qcm_next (s : Session) : Session :=
  let s1 := qcm_save_choice s
  let s2 :=
    if s1.index < s1.questions.length - 1 then { s1 with index := s1.index + 1 }
    else s1
  qcm_render s2

/-- Clicking an option radiobutton: the displayed variable takes the
option's index and `qcm_save_choice` fires. -/
def qcm_select (s : Session) (i : Nat) : Session :=
  qcm_save_choice { s with choice := (i : Int) }

/-- Accepting a new quiz (gui_generate_qcm lines 853-855 plus the
render): fresh session at index 0 with empty answers. -/
def qcm_load (qs : List SQuestion) : Session :=
  qcm_render { questions := qs, index := 0, answers := [], choice := -1 }

/-- One line of the correction report: the user's recorded index, the
resolved correct index, and whether the question counts as correct
(`ok = (correct_idx is not None and user_idx == correct_idx)`). -/
structure FEntry where
  userIdx : Option Int
  correctIdx : Option Nat
  ok : Bool
deriving Repr, DecidableEq

/-- One iteration of `qcm_finish`'s loop: resolving the raw answer can
raise (a `ValueError` escaping `_answer_to_index`), which aborts the
whole report. -/
def mkEntry (ans : List (Nat × Int)) (idx : Nat) (q : SQuestion) :
    Except Unit FEntry :=
  match answer_to_index q.answer q.options with
  | .error e => .error e
  | .ok c =>
    .ok ⟨lookupA ans idx, c, c.isSome && decide (lookupA ans idx = c.map Int.ofNat)⟩

/-- The entry `qcm_finish` builds for one question when its resolution
does not raise (the raising case is mapped to a dummy never reported). -/
def entryOf (ans : List (Nat × Int)) (p : Nat × SQuestion) : FEntry :=
  match answer_to_index p.2.answer p.2.options with
  | .ok c =>
    ⟨lookupA ans p.1, c, c.isSome && decide (lookupA ans p.1 = c.map Int.ofNat)⟩
  | .error _ => ⟨lookupA ans p.1, none, false⟩

/-- The loop of `qcm_finish`, in question order; the first raising
resolution aborts it. -/
def entriesAll : List (Nat × SQuestion) → List (Nat × Int) →
    Except Unit (List FEntry)
  | [], _ => .ok []
  | p :: rest, ans =>
    match mkEntry ans p.1 p.2 with
    | .error e => .error e
    | .ok e =>
      match entriesAll rest ans with
      | .error e2 => .error e2
      | .ok l => .ok (e :: l)

/-- `qcm_finish`: saves the displayed selection first, then reports one
entry per question in original order — or propagates the resolver's
exception. -/
def qcm_finish_entries (s : Session) : Except Unit (List FEntry) :=
  entriesAll (qcm_save_choice s).questions.enum (qcm_save_choice s).answers

/-- The reported score: the number of questions counted correct, when
the report completes. -/
def qcm_finish_score (s : Session) : Except Unit Nat :=
  match qcm_finish_entries s with
  | .error e => .error e
  | .ok l => .ok (l.countP (fun e => e.ok))

/-- A question whose raw answer the resolver handles without raising. -/
def resolves (q : SQuestion) : Bool :=
  match answer_to_index q.answer q.options with
  | .ok _ => true
  | .error _ => false

/-- The session-mutating effect of `qcm_finish` (only the initial
`qcm_save_choice`; index and quiz are untouched). -/
def qcm_finish_state (s : Session) : Session :=
  qcm_save_choice s

/-- User actions on a loaded session, for reachability statements. -/
inductive QcmOp where
  | select (i : Nat)
  | prev
  | next
  | finish

def applyOp (s : Session) : QcmOp → Session
  | .select i => qcm_select s i
  | .prev => qcm_prev s
  | .next => qcm_next s
  | .finish => qcm_finish_state s

def applyOps (s : Session) : List QcmOp → Session
  | [] => s
  | op :: rest => applyOps (applyOp s op) rest

/-- Pure prev/next navigation, for the round-trip claim: `true` is
`next()`, `false` is `prev()`. -/
def navStep (s : Session) (b : Bool) : Session :=
  if b then qcm_next s else qcm_prev s

def navSeq (s : Session) : List Bool → Session
  | [] => s
  | b :: rest => navSeq (navStep s b) rest

/-- The pre-move current indices visited along a navigation sequence. -/
def navVisited (s : Session) : List Bool → List Nat
  | [] => []
  | b :: rest => s.index :: navVisited (navStep s b) rest

/-! ### `gui_generate_qcm` (app_gui.py lines 818-869) and
`ask_ollama` (ollama_client.py lines 10-34) -/

/-- `ask_ollama`, as a function of the external process's outcome:
`none` models a missing `ollama` executable (`FileNotFoundError`),
`some (stdout, stderr)` a completed run.  `.error` models the
`RuntimeError` raised for a missing command or empty stripped output. -/
def ask_ollama (procResult : Option (String × String)) : Except String String :=
  match procResult with
  | none =>
    .error "Commande 'ollama' introuvable. Ollama n'est pas installé ou pas dans le PATH."
  | some (out, err) =>
    let o := pyStrip out
    if o = "" then .error ("Ollama n'a rien renvoyé. stderr=" ++ pyStrip err)
    else .ok o

/-- The quiz-session fields mutated by `gui_generate_qcm`
(`qcm_data`, `qcm_index`, `qcm_user_answers`). -/
structure QcmGuiState where
  data : Option (List NormQ)
  index : Nat
  userAnswers : List (Nat × Int)

/-- The dict literal `_parse_qcm_from_text` hands to `_normalize_qcm`. -/
def tqToJson (qs : List TQuestion) : JsonVal :=
  .obj [("questions", .arr (qs.map (fun q =>
    JsonVal.obj
      [("question", .str q.question),
       ("options", .arr (q.options.map .str)),
       ("answer", match q.answer with | some a => .str a | none => .null),
       ("explanation", .str q.explanation)])))]

/-- Lines 843-848: JSON extraction + normalization, with the text-block
parser as fallback when the first normalization produced no result. -/
def qcm_pipeline (raw : String) : Except Unit (Option (List NormQ)) :=
  match normalize_qcm ((extract_json_obj raw).getD .null) with
  | .error e => .error e
  | .ok (some q) => .ok (some q)
  | .ok none =>
    match parse_qcm_from_text raw with
    | none => .ok none
    | some tqs => normalize_qcm (tqToJson tqs)

/-- `gui_generate_qcm`, as a function of the prior session state and
the model invocation's outcome.  Every failure (model invocation
raised, pipeline raised, pipeline produced no result — the explicit
`ValueError` at line 851) lands in the `except` block, which leaves the
session fields untouched; only full success installs the new quiz at
index 0 with empty answers.  The returned flag is `true` on success. -/
def gui_generate_qcm (st : QcmGuiState) (modelResult : Except String String) :
    QcmGuiState × Bool :=
  match modelResult with
  | .error _ => (st, false)
  | .ok raw =>
    match qcm_pipeline raw with
    | .error _ => (st, false)
    | .ok none => (st, false)
    | .ok (some quiz) => ({ data := some quiz, index := 0, userAnswers := [] }, true)

/-- The raw-answer shapes whose resolution behaviour claim C1
enumerates: absent, integer, or textual. -/
def resolverCovered : JsonVal → Bool
  | .null => true
  | .num _ => true
  | .str _ => true
  | _ => false

/-- Spec-side answer token of claim C7 as amended: the first truthy
value among `answer`, `correct`, `correct_answer`; when none is truthy,
the value of the `correct_answer` key (null when absent). -/
def ansSpec (kvs : List (String × JsonVal)) : JsonVal :=
  if (jget kvs "answer").pyTruthy then jget kvs "answer"
  else if (jget kvs "correct").pyTruthy then jget kvs "correct"
  else jget kvs "correct_answer"

/-- Spec-side predicate of claim C5: a question index counts correct
iff its resolved correct index is known and equals the recorded
choice. -/
def countedCorrect (ans : List (Nat × Int)) (p : Nat × SQuestion) : Bool :=
  match answer_to_index p.2.answer p.2.options with
  | .ok (some c) => decide (lookupA ans p.1 = some (Int.ofNat c))
  | _ => false

end Cartable

namespace Cartable

/-! ## Theorems -/

/-- Any index produced by the textual branch is below the option
count. -/
theorem textResolve_lt {s : String} {n i : Nat}
    (h : textResolve s n = .ok (some i)) : i < n := by
  unfold textResolve at h
  split at h
  · exact absurd h (by simp)
  · split at h
    · injection h with h
      split at h
      · cases h; omega
      · exact absurd h (by simp)
    · split at h
      · split at h
        · exact absurd h (by simp)
        · injection h with h
          split at h
          · cases h; omega
          · split at h
            · cases h; omega
            · exact absurd h (by simp)
      · exact absurd h (by simp)

/-- Claim C4: text-block parsing of the exact sample input yields one
question with text `"What is 2+2?"`, options `["A) 3", "B) 4", "C) 5"]`
in order, raw answer letter `"B"`, and explanation
`"Basic arithmetic."`. -/
theorem c4_text_block_example :
    parse_qcm_from_text
        "Q1: What is 2+2?\nA) 3\nB) 4\nC) 5\nANSWER: B\nEXPLANATION: Basic arithmetic." =
      some [⟨"What is 2+2?", ["A) 3", "B) 4", "C) 5"], some "B",
            "Basic arithmetic."⟩] := by
  decide

/-- Counterexample to claim C2: the normalizer *can* raise.  On the
decoded JSON value `\x7b"questions": [\x7b"question": 1, "options":
["a", "b"]\x7d]\x7d` the source evaluates `(1).strip()` and dies with
an `AttributeError` (modelled as `.error ()`), contradicting "the
normalizer never raises". -/
theorem c2_counterexample :
    normalize_qcm (.obj [("questions", .arr
      [.obj [("question", .num 1), ("options", .arr [.str "a", .str "b"])]])]) =
      .error () := by
  rfl

/-- Counterexample to claim C3: on an input holding two parseable
top-level objects, the greedy regex `\x7b[\s\S]*\x7d` spans from the
first opening brace to the LAST closing brace, the span fails to parse,
and extraction returns no result — although the first object substring
`\x7b"x": 1\x7d` parses fine and the claim says it would be returned. -/
theorem c3_counterexample :
    extract_json_obj "a \x7b\"x\": 1\x7d b \x7b\"y\": 2\x7d" = none ∧
    jsonLoads "\x7b\"x\": 1\x7d" = some (.obj [("x", .num 1)]) ∧
    "a \x7b\"x\": 1\x7d b \x7b\"y\": 2\x7d" =
      "a " ++ "\x7b\"x\": 1\x7d" ++ " b \x7b\"y\": 2\x7d" :=
  ⟨rfl, rfl, rfl⟩

/-- Counterexample to claim C7: the `answer` key is present with value
`0`, yet — `0` being falsy — the source's `or`-chain skips it and takes
the `correct` key's value `2` as the raw answer token. -/
theorem c7_counterexample :
    normalize_qcm (.obj [("questions", .arr [.obj
      [("question", .str "x"), ("options", .arr [.str "a", .str "b"]),
       ("answer", .num 0), ("correct", .num 2)]])]) =
      .ok (some [⟨"x", .arr [.str "a", .str "b"], .num 2, ""⟩]) ∧
    JsonVal.num 2 ≠ JsonVal.num 0 :=
  ⟨rfl, by simp⟩

/-- Counterexample to claim C1: the resolver can raise instead of
returning an index or unknown.  The stripped text `"²"` has no
standalone letter, `"²".isdigit()` is `True`, but `int("²")` raises
`ValueError` — which escapes `_answer_to_index` (it has no handler), so
the resolver neither returns an index nor "unknown". -/
theorem c1_counterexample :
    answer_to_index (.str "²") ["x", "y"] = .error () := rfl

/-- Claim C1 (amended): the answer resolver returns an index below the
option count or unknown — except that a textual answer whose stripped
text has no standalone letter `A`-`F`, passes `isdigit`, but is not
`int()`-convertible (e.g. `"²"`) makes it raise.  On the shapes the
claim enumerates (absent, integer, textual) it otherwise behaves
exactly as described: an integer resolves to itself iff within
`[0, n)`; a textual answer containing a standalone letter `A`-`F`
resolves to its alphabetical position iff below `n`; an all-digit text
resolves by its numeric value, 0-based first with a 1-based fallback —
including non-ASCII decimal digits such as `"٣"` (= 3); anything else
is unknown — including the four concrete examples of the claim. -/
theorem c1_answer_resolver (a : JsonVal) (opts : List String) :
    (∀ i, answer_to_index a opts = .ok (some i) → i < opts.length) ∧
    (resolverCovered a = true → answer_to_index a opts = resolveSpec a opts) ∧
    answer_to_index (.str "B") ["x", "y", "z"] = .ok (some 1) ∧
    answer_to_index (.num 2) ["x", "y", "z"] = .ok (some 2) ∧
    answer_to_index (.str "5") ["x", "y"] = .ok none ∧
    answer_to_index (.str "1") ["x", "y"] = .ok (some 1) ∧
    answer_to_index (.str "٣") ["w", "x", "y", "z"] = .ok (some 3) := by
  refine ⟨?_, ?_, rfl, rfl, rfl, rfl, rfl⟩
  · intro i hi
    cases a with
    | null => exact absurd hi (by simp [answer_to_index])
    | num z =>
      simp only [answer_to_index] at hi
      injection hi with hi
      split at hi
      · cases hi
        omega
      · exact absurd hi (by simp)
    | bool b =>
      rw [show answer_to_index (JsonVal.bool b) opts =
          .ok (if (if b then 1 else 0) < opts.length then
            some (if b then 1 else 0) else none) from rfl] at hi
      injection hi with hi
      split at hi
      all_goals split at hi
      all_goals
        first
        | (cases hi; assumption)
        | exact absurd hi (by simp)
    | str s => exact textResolve_lt hi
    | arr xs => exact textResolve_lt hi
    | obj kvs => exact textResolve_lt hi
  · intro hc
    cases a with
    | null => rfl
    | num z => rfl
    | str s => rfl
    | bool b => exact absurd hc (by simp [resolverCovered])
    | arr xs => exact absurd hc (by simp [resolverCovered])
    | obj kvs => exact absurd hc (by simp [resolverCovered])

/-- Witness for C1 at the concrete input `("B", ["x","y","z"])`. -/
theorem c1_answer_resolver_witness :
    1 < (["x", "y", "z"] : List String).length ∧
    answer_to_index (.str "B") ["x", "y", "z"] =
      resolveSpec (.str "B") ["x", "y", "z"] :=
  ⟨(c1_answer_resolver (.str "B") ["x", "y", "z"]).1 1 rfl,
   (c1_answer_resolver (.str "B") ["x", "y", "z"]).2.1 (by decide)⟩

/-- Claim C3 (amended): extraction attempts, in order, (1) the whole
stripped text, (2) the greedy span from the first opening brace to the
last closing brace, (3) the greedy span from the first opening bracket
to the last closing bracket; the first successful parse is returned and
no further attempts follow; if all fail (or the text is empty), no
result. -/
theorem c3_extraction_order (t : String) :
    (t = "" → extract_json_obj t = none) ∧
    (∀ v, t ≠ "" → jsonLoads (pyStrip t) = some v → extract_json_obj t = some v) ∧
    (∀ v, t ≠ "" → jsonLoads (pyStrip t) = none →
      (greedySpan '{' '}' (pyStrip t).data).bind (fun l => jsonLoads ⟨l⟩) = some v →
      extract_json_obj t = some v) ∧
    (t ≠ "" → jsonLoads (pyStrip t) = none →
      (greedySpan '{' '}' (pyStrip t).data).bind (fun l => jsonLoads ⟨l⟩) = none →
      extract_json_obj t =
        (greedySpan '[' ']' (pyStrip t).data).bind (fun l => jsonLoads ⟨l⟩)) := by
  refine ⟨?_, ?_, ?_, ?_⟩
  · intro h
    simp [extract_json_obj, h]
  · intro v h hv
    simp [extract_json_obj, h, hv]
  · intro v h h1 h2
    simp [extract_json_obj, h, h1, h2]
  · intro h h1 h2
    simp [extract_json_obj, h, h1, h2]

/-- Witness for C3 at the concrete input `"1"` (whole-text parse
succeeds and is returned). -/
theorem c3_extraction_order_witness :
    extract_json_obj "1" = some (.num 1) :=
  (c3_extraction_order "1").2.1 (.num 1) (by decide) rfl

/-- The `or`-chain the source uses for the answer token equals the
first-truthy-of-three description. -/
theorem ansSel_eq_ansSpec (kvs : List (String × JsonVal)) :
    ansSel kvs = ansSpec kvs := by
  unfold ansSel ansSpec JsonVal.pyOr
  by_cases h1 : (jget kvs "answer").pyTruthy <;>
    by_cases h2 : (jget kvs "correct").pyTruthy <;>
      simp [h1, h2]

/-- Claim C7 (amended): every question surviving normalization carries
as its raw answer token the first truthy value among the `answer`,
`correct`, `correct_answer` keys, unchanged and untyped; when none is
truthy, the value of the `correct_answer` key (null when absent). -/
theorem c7_answer_priority (kvs : List (String × JsonVal)) (nq : NormQ)
    (h : processQ (.obj kvs) = .ok (some nq)) :
    nq.answer = ansSpec kvs := by
  simp only [processQ] at h
  split at h
  · exact absurd h (by simp)
  · split at h
    · exact absurd h (by simp)
    · split at h
      · exact absurd h (by simp)
      · split at h
        · exact absurd h (by simp)
        · split at h
          · exact absurd h (by simp)
          · injection h with h1
            injection h1 with h2
            rw [← h2]
            exact ansSel_eq_ansSpec kvs

/-- Witness for C7 at a concrete surviving question. -/
theorem c7_answer_priority_witness :
    (⟨"x", .arr [.str "a", .str "b"], .str "B", ""⟩ : NormQ).answer =
      ansSpec [("question", .str "x"), ("options", .arr [.str "a", .str "b"]),
               ("correct", .str "B")] :=
  c7_answer_priority _ _ rfl

/-- Claim C8: a block on whose clean remainder the multi-line option
pattern finds fewer than two option lines and the inline pattern fewer
than two matches contributes no question. -/
theorem c8_insufficient_options (b : List Char)
    (hm : (multiOpts (restCleanOf b)).length < 2)
    (hi : (inlineOpts (restCleanOf b)).length < 2) :
    blockToQ b = none := by
  cases h : matchQn b with
  | none => simp [blockToQ, h]
  | some rest =>
    simp only [restCleanOf, h] at hm hi
    have h1 : ¬ 2 ≤ (multiOpts (restCleanFrom rest)).length := by omega
    have h2 : ¬ 2 ≤ (inlineOpts (restCleanFrom rest)).length := by omega
    simp [blockToQ, h, h1, h2]

/-- Witness for C8: a block with exactly one recognizable option line
yields no question. -/
theorem c8_insufficient_options_witness :
    (multiOpts (restCleanOf "Q1: t?\nA) only one".data)).length < 2 ∧
    blockToQ "Q1: t?\nA) only one".data = none :=
  ⟨by decide, c8_insufficient_options _ (by decide) (by decide)⟩

/-- A value with a string projection is that string. -/
theorem asStr_some {v : JsonVal} {s : String} (h : asStr v = some s) :
    v = .str s := by
  cases v <;> simp_all [asStr]

/-- Projecting back out of a string-tagged list is the identity. -/
theorem filterMap_asStr_map_str (l : List String) :
    (l.map JsonVal.str).filterMap asStr = l := by
  induction l with
  | nil => rfl
  | cons a t ih => simp [asStr, ih]

/-- The list branch of option massaging always yields a string list. -/
theorem cleanOpts_arr_shape (xs : List JsonVal) :
    ∃ l : List String, cleanOpts (.arr xs) = .arr (l.map .str) :=
  ⟨(xs.map (fun x : JsonVal => pyStrip x.pyStr)).filter
      (fun s : String => s ≠ ""), rfl⟩

/-- A sequence- or mapping-shaped options selection becomes a sequence
after the letter-mapping conversion. -/
theorem convOpts_shape (v : JsonVal)
    (h : (match v with
          | JsonVal.arr _ => true
          | JsonVal.obj _ => true
          | _ => false) = true) :
    ∃ xs : List JsonVal, convOpts v = .arr xs := by
  cases v with
  | arr xs => exact ⟨xs, rfl⟩
  | obj okvs => exact ⟨_, rfl⟩
  | null => simp at h
  | bool b => simp at h
  | num n => simp at h
  | str s => simp at h

/-- On a well-formed question candidate, the loop body of
`_normalize_qcm` does not raise and keeps exactly the spec-side
survivors. -/
theorem processQ_WF (q : JsonVal) (hw : qWF q = true) :
    processQ q = .ok (survives q) := by
  cases q with
  | null => rfl
  | bool b => rfl
  | num n => rfl
  | str s => rfl
  | arr xs => rfl
  | obj kvs =>
    simp only [qWF, Bool.and_eq_true] at hw
    obtain ⟨⟨h1, h2⟩, h3⟩ := hw
    obtain ⟨s0, hq⟩ := Option.isSome_iff_exists.mp h1
    obtain ⟨e0, he⟩ := Option.isSome_iff_exists.mp h2
    have hqv : qTextSel kvs = .str s0 := asStr_some hq
    have hev : expSel kvs = .str e0 := asStr_some he
    obtain ⟨xs, hxs⟩ := convOpts_shape _ h3
    obtain ⟨l, hl⟩ := cleanOpts_arr_shape xs
    have hcl : cleanOpts (convOpts (optsSel kvs)) = .arr (l.map .str) := by
      rw [hxs]; exact hl
    simp only [processQ, survives, recoveredText, recoveredOptions, hq, he,
      hqv, hev, hcl, strD, asStr, filterMap_asStr_map_str, JsonVal.pyLen,
      List.length_map]
    by_cases hempty : pyStrip s0 = ""
    · simp [hempty]
    · by_cases hlen : l.length < 2
      · simp [hempty, hlen]
      · simp [hempty, hlen]

/-- The whole loop of `_normalize_qcm` on well-formed candidates. -/
theorem processAll_WF (qs : List JsonVal) (hw : ∀ q ∈ qs, qWF q = true) :
    processAll qs = .ok (qs.filterMap survives) := by
  induction qs with
  | nil => rfl
  | cons q rest ih =>
    have hq := hw q (List.mem_cons_self _ _)
    have hrest := ih (fun x hx => hw x (List.mem_cons_of_mem _ hx))
    simp only [processAll, processQ_WF q hq, hrest, List.filterMap_cons]
    cases survives q <;> simp

/-- Claim C2 (amended): for every decoded JSON value whose question
entries have string-valued (or absent/falsy) question and explanation
selections and sequence- or letter-mapping-shaped (or absent/falsy)
options selections, the normalizer never raises; it drops exactly those
question entries whose recovered text is empty or whose trimmed,
non-empty option count is below 2 (and any non-mapping entries),
returns "no result" iff no question survives, and otherwise returns the
surviving questions in their original order. -/
theorem c2_normalizer (data : JsonVal) (hw : dataWF data) :
    normalize_qcm data = .ok (specNormalize data) := by
  cases data with
  | null => rfl
  | bool b => rfl
  | num n => rfl
  | str s => rfl
  | arr xs =>
    have hq : ∀ q ∈ xs, qWF q = true := by
      simpa [dataWF, questionsOf] using hw
    have hstep : normalize_qcm (.arr xs) =
        (if xs.isEmpty then .ok none else
          match processAll xs with
          | .error e => .error e
          | .ok out => if out.isEmpty then .ok none else .ok (some out)) := rfl
    rw [hstep, processAll_WF xs hq]
    by_cases he : xs.isEmpty
    · have : xs = [] := List.isEmpty_iff.mp he
      subst this
      simp [specNormalize, questionsOf]
    · simp only [he, if_false]
      by_cases hfe : (xs.filterMap survives).isEmpty
      · simp [hfe, specNormalize, questionsOf]
      · simp [hfe, specNormalize, questionsOf]
  | obj kvs =>
    cases hlq : kvs.lookup "questions" with
    | some v =>
      cases v with
      | arr xs =>
        have hq : ∀ q ∈ xs, qWF q = true := by
          have := hw
          simp only [dataWF, questionsOf, hlq] at this
          exact this
        have hstep : normalize_qcm (.obj kvs) =
            (if xs.isEmpty then .ok none else
              match processAll xs with
              | .error e => .error e
              | .ok out => if out.isEmpty then .ok none else .ok (some out)) := by
          simp [normalize_qcm, hlq]
        rw [hstep, processAll_WF xs hq]
        by_cases he : xs.isEmpty
        · have : xs = [] := List.isEmpty_iff.mp he
          subst this
          simp [specNormalize, questionsOf, hlq]
        · simp only [he, if_false]
          by_cases hfe : (xs.filterMap survives).isEmpty
          · simp [hfe, specNormalize, questionsOf, hlq]
          · simp [hfe, specNormalize, questionsOf, hlq]
      | null => simp [normalize_qcm, hlq, specNormalize, questionsOf]
      | bool b => simp [normalize_qcm, hlq, specNormalize, questionsOf]
      | num n => simp [normalize_qcm, hlq, specNormalize, questionsOf]
      | str s => simp [normalize_qcm, hlq, specNormalize, questionsOf]
      | obj okvs => simp [normalize_qcm, hlq, specNormalize, questionsOf]
    | none =>
      cases hlz : kvs.lookup "quiz" with
      | some v =>
        cases v with
        | arr xs =>
          have hq : ∀ q ∈ xs, qWF q = true := by
            have := hw
            simp only [dataWF, questionsOf, hlq, hlz] at this
            exact this
          have hstep : normalize_qcm (.obj kvs) =
              (if xs.isEmpty then .ok none else
                match processAll xs with
                | .error e => .error e
                | .ok out => if out.isEmpty then .ok none else .ok (some out)) := by
            simp [normalize_qcm, hlq, hlz]
          rw [hstep, processAll_WF xs hq]
          by_cases he : xs.isEmpty
          · have : xs = [] := List.isEmpty_iff.mp he
            subst this
            simp [specNormalize, questionsOf, hlq, hlz]
          · simp only [he, if_false]
            by_cases hfe : (xs.filterMap survives).isEmpty
            · simp [hfe, specNormalize, questionsOf, hlq, hlz]
            · simp [hfe, specNormalize, questionsOf, hlq, hlz]
        | null => simp [normalize_qcm, hlq, hlz, specNormalize, questionsOf]
        | bool b => simp [normalize_qcm, hlq, hlz, specNormalize, questionsOf]
        | num n => simp [normalize_qcm, hlq, hlz, specNormalize, questionsOf]
        | str s => simp [normalize_qcm, hlq, hlz, specNormalize, questionsOf]
        | obj okvs => simp [normalize_qcm, hlq, hlz, specNormalize, questionsOf]
      | none => simp [normalize_qcm, hlq, hlz, specNormalize, questionsOf]

/-- Witness for C2 at a concrete well-formed payload. -/
theorem c2_normalizer_witness :
    normalize_qcm (.obj [("questions", .arr [.obj [("question", .str "ok"),
      ("options", .arr [.str "a", .str "b"])]])]) =
      .ok (specNormalize (.obj [("questions", .arr [.obj [("question", .str "ok"),
        ("options", .arr [.str "a", .str "b"])]])])) :=
  c2_normalizer _ (by unfold dataWF; decide)

/-- Lookup after a store: the stored key reads back the new value,
every other key is untouched. -/
theorem lookupA_setA (m : List (Nat × Int)) (k : Nat) (v : Int) (j : Nat) :
    lookupA (setA m k v) j = if k = j then some v else lookupA m j := by
  induction m with
  | nil => by_cases h : k = j <;> simp [setA, lookupA, h]
  | cons p rest ih =>
    obtain ⟨k0, v0⟩ := p
    simp only [setA]
    by_cases h : k0 = k
    · subst h
      simp only [if_pos rfl, lookupA]
      by_cases hj : k0 = j
      · simp [hj]
      · simp [hj, lookupA]
    · simp only [if_neg h, lookupA]
      by_cases hj : k0 = j
      · have h' : ¬ k = j := fun hh => h (hj.trans hh.symm)
        simp [hj, h', lookupA]
      · simp [hj, ih, lookupA]

/-- `qcm_save_choice` leaves the questions and index alone. -/
theorem save_choice_questions (s : Session) :
    (qcm_save_choice s).questions = s.questions := by
  unfold qcm_save_choice
  split <;> rfl

theorem save_choice_index (s : Session) :
    (qcm_save_choice s).index = s.index := by
  unfold qcm_save_choice
  split <;> rfl

/-- `qcm_save_choice` never touches the answer recorded for any other
index. -/
theorem save_choice_frame (s : Session) (j : Nat) (hj : j ≠ s.index) :
    lookupA (qcm_save_choice s).answers j = lookupA s.answers j := by
  have h' : ¬ s.index = j := fun hh => hj hh.symm
  unfold qcm_save_choice
  split
  · simp [lookupA_setA, h']
  · rfl

/-- `qcm_next` only moves the index and saves the displayed choice. -/
theorem qcm_next_answers (s : Session) :
    (qcm_next s).answers = (qcm_save_choice s).answers := by
  by_cases h : (qcm_save_choice s).index < (qcm_save_choice s).questions.length - 1 <;>
    simp [qcm_next, qcm_render, h]

theorem qcm_prev_answers (s : Session) :
    (qcm_prev s).answers = (qcm_save_choice s).answers := by
  by_cases h : 0 < (qcm_save_choice s).index <;>
    simp [qcm_prev, qcm_render, h]

/-- The index movement of `qcm_next`: clamp at the last question. -/
theorem qcm_next_index (s : Session) :
    (qcm_next s).index =
      if s.index < s.questions.length - 1 then s.index + 1 else s.index := by
  have hq := save_choice_questions s
  have hi := save_choice_index s
  by_cases h : s.index < s.questions.length - 1 <;>
    simp [qcm_next, qcm_render, hq, hi, h]

/-- The index movement of `qcm_prev`: clamp at 0. -/
theorem qcm_prev_index (s : Session) :
    (qcm_prev s).index = if 0 < s.index then s.index - 1 else s.index := by
  have hi := save_choice_index s
  by_cases h : 0 < s.index <;>
    simp [qcm_prev, qcm_render, hi, h]

theorem navStep_frame (s : Session) (b : Bool) (j : Nat) (hj : j ≠ s.index) :
    lookupA (navStep s b).answers j = lookupA s.answers j := by
  cases b <;>
    simp only [navStep, Bool.false_eq_true, if_false, if_true,
      qcm_next_answers, qcm_prev_answers] <;>
    exact save_choice_frame s j hj

/-- Frame property of whole navigation sequences: an index never
current during the run keeps its recorded answer. -/
theorem navSeq_frame (ops : List Bool) :
    ∀ (s : Session) (j : Nat), j ∉ navVisited s ops →
      lookupA (navSeq s ops).answers j = lookupA s.answers j := by
  induction ops with
  | nil => intro s j _; rfl
  | cons b rest ih =>
    intro s j hj
    simp only [navVisited, List.mem_cons, not_or] at hj
    calc lookupA (navSeq (navStep s b) rest).answers j
        = lookupA (navStep s b).answers j := ih (navStep s b) j hj.2
      _ = lookupA s.answers j := navStep_frame s b j hj.1

/-- Claim C6: `next()` increments the index unless already at the last
question, `prev()` decrements it unless at 0 (no wraparound); both
first record the currently displayed selection at the pre-move index
and change no other recorded answer; and a prev/next navigation
sequence never changes the recorded answer of an index that was never
current during it. -/
theorem c6_navigation (s : Session) :
    ((qcm_next s).index =
      if s.index < s.questions.length - 1 then s.index + 1 else s.index) ∧
    ((qcm_prev s).index = if 0 < s.index then s.index - 1 else s.index) ∧
    ((qcm_next s).answers = (qcm_save_choice s).answers) ∧
    ((qcm_prev s).answers = (qcm_save_choice s).answers) ∧
    (∀ j, j ≠ s.index →
      lookupA (qcm_next s).answers j = lookupA s.answers j) ∧
    (∀ j, j ≠ s.index →
      lookupA (qcm_prev s).answers j = lookupA s.answers j) ∧
    (∀ ops : List Bool, ∀ j, j ∉ navVisited s ops →
      lookupA (navSeq s ops).answers j = lookupA s.answers j) := by
  refine ⟨qcm_next_index s, qcm_prev_index s, qcm_next_answers s,
    qcm_prev_answers s, ?_, ?_, ?_⟩
  · intro j hj
    rw [qcm_next_answers]
    exact save_choice_frame s j hj
  · intro j hj
    rw [qcm_prev_answers]
    exact save_choice_frame s j hj
  · intro ops j hj
    exact navSeq_frame ops s j hj

/-- Witness for C6 on a concrete two-question session. -/
theorem c6_navigation_witness :
    ((qcm_next (qcm_load [⟨"a", ["x", "y"], .null, ""⟩,
        ⟨"b", ["x", "y"], .null, ""⟩])).index = 1) ∧
    lookupA (navSeq (qcm_load [⟨"a", ["x", "y"], .null, ""⟩,
        ⟨"b", ["x", "y"], .null, ""⟩]) [true, false]).answers 5 =
      lookupA (qcm_load [⟨"a", ["x", "y"], .null, ""⟩,
        ⟨"b", ["x", "y"], .null, ""⟩]).answers 5 :=
  ⟨((c6_navigation (qcm_load [⟨"a", ["x", "y"], .null, ""⟩,
      ⟨"b", ["x", "y"], .null, ""⟩])).1).trans (by decide),
   (c6_navigation (qcm_load [⟨"a", ["x", "y"], .null, ""⟩,
      ⟨"b", ["x", "y"], .null, ""⟩])).2.2.2.2.2.2 [true, false] 5 (by decide)⟩

/-- Values inserted by `setA` and values already present are the only
values present afterwards. -/
theorem setA_mem (m : List (Nat × Int)) (k : Nat) (v : Int) (p : Nat × Int)
    (hp : p ∈ setA m k v) : p.2 = v ∨ p ∈ m := by
  induction m with
  | nil =>
    simp only [setA, List.mem_singleton] at hp
    subst hp
    exact Or.inl rfl
  | cons q rest ih =>
    obtain ⟨k0, v0⟩ := q
    by_cases h : k0 = k
    · simp only [setA, if_pos h, List.mem_cons] at hp
      rcases hp with rfl | hp
      · exact Or.inl rfl
      · exact Or.inr (List.mem_cons_of_mem _ hp)
    · simp only [setA, if_neg h, List.mem_cons] at hp
      rcases hp with rfl | hp
      · exact Or.inr (List.mem_cons_self _ _)
      · rcases ih hp with h2 | h2
        · exact Or.inl h2
        · exact Or.inr (List.mem_cons_of_mem _ h2)

/-- The nonnegativity invariant of the recorded-answers mapping. -/
def AnsInv (s : Session) : Prop :=
  ∀ p ∈ s.answers, 0 ≤ p.2

theorem save_choice_inv (s : Session) (h : AnsInv s) :
    AnsInv (qcm_save_choice s) := by
  unfold qcm_save_choice
  split
  · intro p hp
    rcases setA_mem s.answers s.index s.choice p hp with h2 | h2
    · rw [h2]
      assumption
    · exact h p h2
  · exact h

theorem applyOp_inv (s : Session) (op : QcmOp) (h : AnsInv s) :
    AnsInv (applyOp s op) := by
  cases op with
  | select i =>
    exact save_choice_inv { s with choice := (i : Int) } (fun p hp => h p hp)
  | prev =>
    intro p hp
    have heq : (applyOp s QcmOp.prev).answers = (qcm_save_choice s).answers :=
      qcm_prev_answers s
    rw [heq] at hp
    exact save_choice_inv s h p hp
  | next =>
    intro p hp
    have heq : (applyOp s QcmOp.next).answers = (qcm_save_choice s).answers :=
      qcm_next_answers s
    rw [heq] at hp
    exact save_choice_inv s h p hp
  | finish => exact save_choice_inv s h

/-- Claim C10: in every session state reachable from loading a quiz by
answer selections, `prev()`, `next()` and `finish()`, every value of
the recorded-answers mapping is nonnegative (saving is a no-op on the
negative "no selection" sentinel). -/
theorem c10_nonnegative_answers (qs : List SQuestion) (ops : List QcmOp) :
    ∀ p ∈ (applyOps (qcm_load qs) ops).answers, 0 ≤ p.2 := by
  have base : AnsInv (qcm_load qs) := by
    intro p hp
    simp [qcm_load, qcm_render] at hp
  have step : ∀ (s : Session), AnsInv s → ∀ (l : List QcmOp),
      AnsInv (applyOps s l) := by
    intro s hs l
    induction l generalizing s with
    | nil => exact hs
    | cons op rest ih => exact ih (applyOp s op) (applyOp_inv s op hs)
  exact step (qcm_load qs) base ops

/-- Witness for C10 on a concrete run: select option 1, then next. -/
theorem c10_nonnegative_answers_witness :
    (0 : Int) ≤ (((0 : Nat), (1 : Int)) : Nat × Int).2 :=
  c10_nonnegative_answers [⟨"a", ["x", "y"], .null, ""⟩,
    ⟨"b", ["x", "y"], .null, ""⟩] [.select 1, .next] ((0 : Nat), (1 : Int))
    (by decide)

/-- The report's correctness flag agrees with the spec-side predicate. -/
theorem entryOf_ok_eq (ans : List (Nat × Int)) (p : Nat × SQuestion) :
    (entryOf ans p).ok = countedCorrect ans p := by
  cases h : answer_to_index p.2.answer p.2.options with
  | error e => simp [entryOf, countedCorrect, h]
  | ok c => cases c <;> simp [entryOf, countedCorrect, h]

/-- A question with an unknown resolved answer or no recorded choice is
never counted correct. -/
theorem entryOf_ok_false (ans : List (Nat × Int)) (p : Nat × SQuestion)
    (h : (entryOf ans p).correctIdx = none ∨ (entryOf ans p).userIdx = none) :
    (entryOf ans p).ok = false := by
  cases hc : answer_to_index p.2.answer p.2.options with
  | error e => simp [entryOf, hc]
  | ok c =>
    cases c with
    | none => simp [entryOf, hc]
    | some cv =>
      cases hu : lookupA ans p.1 with
      | none => simp [entryOf, hc, hu]
      | some u => simp [entryOf, hc, hu] at h

/-- Under raise-free resolution the report loop completes with one
entry per question, in order. -/
theorem entriesAll_ok (ans : List (Nat × Int)) (ps : List (Nat × SQuestion))
    (h : ∀ p ∈ ps, resolves p.2 = true) :
    entriesAll ps ans = .ok (ps.map (entryOf ans)) := by
  induction ps with
  | nil => rfl
  | cons p rest ih =>
    have hp := h p (List.mem_cons_self _ _)
    have hrest := ih (fun x hx => h x (List.mem_cons_of_mem _ hx))
    unfold resolves at hp
    cases hc : answer_to_index p.2.answer p.2.options with
    | error e =>
      rw [hc] at hp
      simp at hp
    | ok c =>
      simp only [entriesAll, mkEntry, hc, hrest, List.map_cons]
      simp [entryOf, hc]

/-- The reported score counts exactly the spec-side correct indices,
whenever every resolution completes. -/
theorem finish_score_countP (s : Session)
    (hok : ∀ q ∈ s.questions, resolves q = true) :
    qcm_finish_score s =
      .ok ((qcm_save_choice s).questions.enum.countP
        (countedCorrect (qcm_save_choice s).answers)) := by
  have hok' : ∀ p ∈ (qcm_save_choice s).questions.enum, resolves p.2 = true := by
    intro p hp
    apply hok
    rw [save_choice_questions] at hp
    exact List.snd_mem_of_mem_enum hp
  unfold qcm_finish_score qcm_finish_entries
  rw [entriesAll_ok _ _ hok']
  dsimp only
  congr 1
  rw [List.countP_map]
  apply List.countP_congr
  intro a _
  simp [Function.comp, entryOf_ok_eq]

/-- Counterexample to claim C5: a loaded session on which `finish()`
raises instead of reporting a score.  The raw answer token `"²"`
survives normalization untouched (first conjunct), and on the loaded
session the scoring loop's `_answer_to_index` call raises `ValueError`
(second conjunct), so no score is reported. -/
theorem c5_counterexample :
    normalize_qcm (.obj [("questions", .arr [.obj
      [("question", .str "q"), ("options", .arr [.str "a", .str "b"]),
       ("answer", .str "²")]])]) =
      .ok (some [⟨"q", .arr [.str "a", .str "b"], .str "²", ""⟩]) ∧
    qcm_finish_score (qcm_load [⟨"q", ["a", "b"], .str "²", ""⟩]) = .error () :=
  ⟨rfl, rfl⟩

/-- Claim C5 (amended): on every loaded session all of whose questions'
raw answers resolve without raising, `finish()` reports a score equal
to the number of questions whose resolved correct index is known and
equals the recorded choice; a question with an unknown resolved answer
or no recorded choice is never counted correct; if every question's
recorded choice equals its resolved correct index the score is the
question count; and on a freshly loaded session (zero recorded
answers) every question reports no chosen option and the score is 0.
On a session holding an isdigit-true, non-`int()`-convertible answer
token such as `"²"`, `finish()` raises instead of reporting a score. -/
theorem c5_finish_scoring (s : Session)
    (hok : ∀ q ∈ s.questions, resolves q = true) :
    (qcm_finish_score s =
      .ok ((qcm_save_choice s).questions.enum.countP
        (countedCorrect (qcm_save_choice s).answers))) ∧
    (∀ l, qcm_finish_entries s = .ok l →
      ∀ e ∈ l, (e.correctIdx = none ∨ e.userIdx = none) → e.ok = false) ∧
    ((∀ p ∈ (qcm_save_choice s).questions.enum,
        countedCorrect (qcm_save_choice s).answers p = true) →
      qcm_finish_score s = .ok s.questions.length) ∧
    (∀ qs : List SQuestion, (∀ q ∈ qs, resolves q = true) →
      qcm_finish_score (qcm_load qs) = .ok 0 ∧
      ∀ l, qcm_finish_entries (qcm_load qs) = .ok l →
        ∀ e ∈ l, e.userIdx = none) := by
  have hok' : ∀ p ∈ (qcm_save_choice s).questions.enum, resolves p.2 = true := by
    intro p hp
    apply hok
    rw [save_choice_questions] at hp
    exact List.snd_mem_of_mem_enum hp
  refine ⟨finish_score_countP s hok, ?_, ?_, ?_⟩
  · intro l hl e he hcase
    unfold qcm_finish_entries at hl
    rw [entriesAll_ok _ _ hok'] at hl
    injection hl with hl
    subst hl
    obtain ⟨p, hp, rfl⟩ := List.mem_map.mp he
    exact entryOf_ok_false _ _ hcase
  · intro hall
    rw [finish_score_countP s hok]
    rw [List.countP_eq_length.mpr hall, List.enum_length, save_choice_questions]
  · intro qs hq
    have hq0 : ∀ q ∈ (qcm_load qs).questions, resolves q = true := hq
    have hz : (qcm_save_choice (qcm_load qs)).answers = [] := rfl
    have hokq : ∀ p ∈ (qcm_save_choice (qcm_load qs)).questions.enum,
        resolves p.2 = true := by
      intro p hp
      apply hq0
      rw [save_choice_questions] at hp
      exact List.snd_mem_of_mem_enum hp
    constructor
    · rw [finish_score_countP (qcm_load qs) hq0]
      congr 1
      apply List.countP_eq_zero.mpr
      intro a _
      rw [hz]
      cases hc : answer_to_index a.2.answer a.2.options with
      | error e => simp [countedCorrect, hc]
      | ok c => cases c <;> simp [countedCorrect, hc, lookupA]
    · intro l hl e he
      unfold qcm_finish_entries at hl
      rw [entriesAll_ok _ _ hokq] at hl
      injection hl with hl
      subst hl
      obtain ⟨p, hp, rfl⟩ := List.mem_map.mp he
      rw [hz]
      cases hc : answer_to_index p.2.answer p.2.options <;>
        simp [entryOf, hc, lookupA]

/-- Witness for C5: a one-question session answered correctly scores
the full question count. -/
theorem c5_finish_scoring_witness :
    qcm_finish_score (qcm_select (qcm_load [⟨"q", ["x", "y"], .str "A", ""⟩]) 0) =
      .ok (qcm_select (qcm_load [⟨"q", ["x", "y"], .str "A", ""⟩]) 0).questions.length :=
  (c5_finish_scoring _ (by decide)).2.2.1 (by decide)

/-- Claim C9: a failed generate-quiz action — the model invocation
raised (process missing or empty output), the parsing pipeline raised,
or it produced no quiz — leaves the session fields (`qcm_data`,
`qcm_index`, `qcm_user_answers`) exactly as they were; only full
success replaces them by the new quiz, index 0, and empty answers. -/
theorem c9_generate_atomicity (st : QcmGuiState) (mr : Except String String) :
    (∀ e, mr = .error e → gui_generate_qcm st mr = (st, false)) ∧
    (∀ raw, mr = .ok raw → qcm_pipeline raw = .error () →
      gui_generate_qcm st mr = (st, false)) ∧
    (∀ raw, mr = .ok raw → qcm_pipeline raw = .ok none →
      gui_generate_qcm st mr = (st, false)) ∧
    (∀ raw quiz, mr = .ok raw → qcm_pipeline raw = .ok (some quiz) →
      gui_generate_qcm st mr =
        ({ data := some quiz, index := 0, userAnswers := [] }, true)) ∧
    (gui_generate_qcm st (ask_ollama none) = (st, false)) ∧
    (∀ out err, pyStrip out = "" →
      gui_generate_qcm st (ask_ollama (some (out, err))) = (st, false)) := by
  refine ⟨?_, ?_, ?_, ?_, rfl, ?_⟩
  · intro e he
    subst he
    rfl
  · intro raw hr hp
    subst hr
    simp [gui_generate_qcm, hp]
  · intro raw hr hp
    subst hr
    simp [gui_generate_qcm, hp]
  · intro raw quiz hr hp
    subst hr
    simp [gui_generate_qcm, hp]
  · intro out err h
    simp [ask_ollama, h, gui_generate_qcm]

/-- Witness for C9: a raised model invocation leaves the state as it
was. -/
theorem c9_generate_atomicity_witness :
    gui_generate_qcm ⟨none, 0, []⟩ (.error "x") = (⟨none, 0, []⟩, false) :=
  (c9_generate_atomicity ⟨none, 0, []⟩ (.error "x")).1 "x" rfl

end Cartable
